import Mathlib

/-!
# Spec2Proof: shallow embedding of the recallet knowledge-graph engine

This file embeds the core of the recallet repository in Lean 4 and proves
properties of the embedded code.

The source of truth is the TypeScript under `src/`:
* `src/shared/schema.ts` (and the pg variant) — the relational data model:
  `entities` unique on `(user_id, name)`, `relationships` unique on
  `(user_id, source_entity_id, relationship, target_entity_id)`, both with
  optional embedding vectors.
* `src/server/storage.ts` — entity/relationship creation with duplicate-key
  recovery, the combined knowledge-graph search (entity resolution, a two-level
  graph walk, cosine scoring with a 0.76 ceiling and a mean + standard
  deviation band), and the embedding-similarity searches.
* `src/server/llm.ts` — the external language-model gateway (extraction,
  embeddings, descriptions, answer synthesis).  These calls are modelled as
  oracle parameters: a `Gateway` record of functions, fallible ones returning
  `Except`.
* the Express routes — the ingestion request (`POST /api/inputs`) and the
  retrieval request (`POST /api/smart-search`).

Modelling conventions:
* Machine floats are modelled by `ℚ`; the cosine-distance kernel
  (`calculateCosineDistance`, which uses `Math.sqrt` on floats) is abstracted
  as a parameter `cosDist : List ℚ → List ℚ → ℚ` — every theorem about
  control flow holds for any distance kernel.
* The statistical band `distance ≤ mean + stdDev`, where
  `stdDev = Math.sqrt(variance)`, is rendered in exact arithmetic as
  `d ≤ m ∨ (d - m)^2 ≤ v` (`withinBand`); the lemma `withinBand_iff_real`
  proves this is exactly `(d : ℝ) ≤ m + Real.sqrt v` whenever `0 ≤ v`.
* SQL `ORDER BY distance ASC` is an insertion sort on a `WithBot ℚ` key;
  a row whose vector column is NULL gets key `⊥` (MySQL sorts NULLs first
  in ascending order).
* Database state is explicit: a `Db` record of table contents threaded
  through each operation.
-/

namespace Recallet

/-- One row of the `entities` table (`shared/schema.ts`): scoped to a user,
named, with an optional generated description and its embedding
(`description_vec`, nullable in practice for legacy rows). -/
structure Entity where
  id : Nat
  userId : Nat
  name : String
  description : Option String
  descriptionVec : Option (List ℚ)
  deriving Repr, DecidableEq

/-- One row of the `relationships` table (`shared/schema.ts`): a directed
labelled edge between two entity ids, with the label embedding
(`relationship_vec`), an optional elaborated description and its embedding
(`relationship_desc`, `relationship_desc_vec`), and the verbatim source
statement (`original_input`). -/
structure Relationship where
  id : Nat
  userId : Nat
  sourceEntityId : Nat
  targetEntityId : Nat
  relationship : String
  relationshipVec : List ℚ
  relationshipDesc : Option String
  relationshipDescVec : Option (List ℚ)
  originalInput : String
  deriving Repr, DecidableEq

/-- The persistent state: the tables the embedded operations touch.
`inputs` holds the raw statements as `(user_id, content)` pairs
(the other columns of `inputs` play no role in any claim). -/
structure Db where
  entities : List Entity
  relationships : List Relationship
  inputs : List (Nat × String)
  deriving Repr, DecidableEq

/-- `SELECT ... FROM entities WHERE user_id = userId AND name = name LIMIT 1`
(the exact-match lookup used by `getOrCreateEntity` and entity resolution). -/
def findEntity (db : Db) (userId : Nat) (name : String) : Option Entity :=
  db.entities.find? (fun e => decide (e.userId = userId ∧ e.name = name))

/-- Row lookup by primary key, as the `INNER JOIN entities ON ... = e.id`
clauses resolve an id to its entity row. -/
def entityById (db : Db) (id : Nat) : Option Entity :=
  db.entities.find? (fun e => decide (e.id = id))

/-! ## The statistical filter (storage.ts, searchKnowledgeGraph step 3)

```js
const mean = distances.reduce((sum, d) => sum + d, 0) / distances.length;
const variance = distances.reduce((sum, d) => sum + Math.pow(d - mean, 2), 0) / distances.length;
const stdDev = Math.sqrt(variance);
const threshold = mean + stdDev;
...filter(rel => rel.distance <= threshold)
```
-/

/-- Arithmetic mean of a distance list (storage.ts:790). `mean [] = 0` under
ℚ division, matching the guarded use (the list is checked non-empty first). -/
def mean (ds : List ℚ) : ℚ := ds.sum / ds.length

/-- Population variance of a distance list about its mean (storage.ts:791). -/
def variance (ds : List ℚ) : ℚ := (ds.map (fun d => (d - mean ds) ^ 2)).sum / ds.length

/-- The band test `d ≤ mean + stdDev` (storage.ts:793,798) in exact
arithmetic: since `stdDev = √v ≥ 0`, the test holds iff `d ≤ m` outright or
`(d - m)^2 ≤ v`.  `withinBand_iff_real` proves the equivalence. -/
def withinBand (m v d : ℚ) : Bool := decide (d ≤ m) || decide ((d - m) ^ 2 ≤ v)

/-- The coarse absolute ceiling applied before the statistics
(storage.ts:781): `.filter(rel => rel.distance < 0.76)`. -/
def underCeiling (d : ℚ) : Bool := decide (d < 76 / 100)

/-- The adaptive relevance filter (storage.ts:773-798), generic over how a
candidate carries its distance: drop candidates at or above the 0.76 ceiling;
if none survive, the search returns empty (modelled as `[]`); otherwise keep
exactly the survivors within one standard deviation above the mean. -/
def adaptiveFilter {α : Type} (dist : α → ℚ) (xs : List α) : List α :=
  let survivors := xs.filter (fun x => underCeiling (dist x))
  if survivors.isEmpty then []
  else
    let ds := survivors.map dist
    survivors.filter (fun x => withinBand (mean ds) (variance ds) (dist x))

/-! ## ORDER BY modelling -/

/-- Insert `x` behind the elements whose key is at most `key x` (ascending). -/
def insertByKey {α : Type} (key : α → WithBot ℚ) (x : α) : List α → List α
  | [] => [x]
  | y :: ys => if key y ≤ key x then y :: insertByKey key x ys else x :: y :: ys

/-- `ORDER BY key ASC` as an insertion sort.  A row whose vector column is
NULL gets key `⊥`: MySQL/TiDB sorts NULLs first under ascending order. -/
def sortByKey {α : Type} (key : α → WithBot ℚ) : List α → List α
  | [] => []
  | x :: xs => insertByKey key x (sortByKey key xs)

/-! ## Retrieval: entity resolution (storage.ts:680-732) -/

/-- The `ORDER BY cosine_distance(description_vec, query)` key; an entity with
no description embedding has a NULL key (`⊥`). -/
def descDistKey (cosDist : List ℚ → List ℚ → ℚ) (qEmb : List ℚ) (e : Entity) : WithBot ℚ :=
  match e.descriptionVec with
  | none => (⊥ : WithBot ℚ)
  | some v => (cosDist qEmb v : ℚ)

/-- The description-similarity candidates (storage.ts:713-720): the user's
entities ordered by distance to the query embedding, `LIMIT 5`. -/
def similarEntities (cosDist : List ℚ → List ℚ → ℚ) (db : Db) (userId : Nat)
    (qEmb : List ℚ) : List Entity :=
  (sortByKey (descDistKey cosDist qEmb)
    (db.entities.filter (fun e => decide (e.userId = userId)))).take 5

/-- Entity resolution (storage.ts:680-728): exact `(user_id, name)` match
first; on a miss, embed the mention (`embedText` models
`createEntityEmbedding`) and take the nearest of the user's entities by
description-embedding distance.  (The driver-result indexing at
storage.ts:703 vs :722 treats the raw query result inconsistently; both
branches are embedded with the semantics their SQL denotes.) -/
def resolveAnchor (cosDist : List ℚ → List ℚ → ℚ) (embedText : String → List ℚ)
    (db : Db) (userId : Nat) (queryEntity : String) : Option Nat :=
  match findEntity db userId queryEntity with
  | some e => some e.id
  | none =>
    ((similarEntities cosDist db userId (embedText queryEntity)).head?).map (fun e => e.id)

/-! ## Retrieval: the graph walk (storage.ts:735-771) -/

/-- One row of either walk query: a relationship joined (`INNER JOIN`) with
its target entity's name. -/
structure WalkRow where
  rel : Relationship
  targetEntityName : String
  deriving Repr, DecidableEq

/-- The `INNER JOIN entities e2 ON r.target_entity_id = e2.id` part of a walk
query: the row survives only if the target entity row exists. -/
def walkRowOf (db : Db) (r : Relationship) : Option WalkRow :=
  (entityById db r.targetEntityId).map (fun e => ⟨r, e.name⟩)

/-- First edge (storage.ts:739-746): the user's relationships whose source is
the starting entity. -/
def firstEdges (db : Db) (userId anchorId : Nat) : List WalkRow :=
  db.relationships.filterMap (fun r =>
    if r.userId = userId ∧ r.sourceEntityId = anchorId then walkRowOf db r else none)

/-- Second edge (storage.ts:748-762): the user's relationships whose source is
among the first-edge targets (`source_entity_id IN (...)`). -/
def secondEdges (db : Db) (userId : Nat) (targets : List Nat) : List WalkRow :=
  db.relationships.filterMap (fun r =>
    if r.userId = userId ∧ r.sourceEntityId ∈ targets then walkRowOf db r else none)

/-- The walk (storage.ts:735-765): first-edge rows, then — only when there is
at least one first-edge target — second-edge rows, concatenated.  Purely
structural: defined without any embedding or distance input. -/
def graphWalk (db : Db) (userId anchorId : Nat) : List WalkRow :=
  let fe := firstEdges db userId anchorId
  let targets := fe.map (fun w => w.rel.targetEntityId)
  fe ++ (if targets.isEmpty then [] else secondEdges db userId targets)

/-! ## Retrieval: scoring and assembly (storage.ts:773-818) -/

/-- Scoring one walked edge (storage.ts:774-780): cosine distance of the
query-relationship embedding against `relationship_desc_vec`; a row with no
description embedding is assigned the fixed distance `1.0`
(`if (!relDescVec) return { ...rel, distance: 1.0 }`). -/
def scoreWalkRow (cosDist : List ℚ → List ℚ → ℚ) (relationshipEmbedding : List ℚ)
    (w : WalkRow) : ℚ :=
  match w.rel.relationshipDescVec with
  | none => 1
  | some v => cosDist relationshipEmbedding v

/-- JS `Set` insertion-order deduplication (storage.ts:802-811). -/
def dedup (l : List String) : List String :=
  l.foldl (fun acc s => if s ∈ acc then acc else acc ++ [s]) []

/-- What `searchKnowledgeGraph` returns. -/
structure SearchResult where
  originalInputs : List String
  targetEntities : List String
  deriving Repr, DecidableEq

/-- `searchKnowledgeGraph` (storage.ts:668-819): resolve the first query
entity, walk two edges, score, apply the adaptive filter, deduplicate.  The
source's early returns on an empty walk or an empty post-ceiling survivor set
both yield the empty result, which `adaptiveFilter`'s empty case reproduces. -/
def searchKnowledgeGraph (cosDist : List ℚ → List ℚ → ℚ) (embedText : String → List ℚ)
    (db : Db) (userId : Nat) (entityNames : List String)
    (relationshipEmbedding : List ℚ) : SearchResult :=
  match entityNames with
  | [] => ⟨[], []⟩
  | queryEntity :: _ =>
    match resolveAnchor cosDist embedText db userId queryEntity with
    | none => ⟨[], []⟩
    | some startingEntityId =>
      let walk := graphWalk db userId startingEntityId
      if walk.isEmpty then ⟨[], []⟩
      else
        let kept := adaptiveFilter (scoreWalkRow cosDist relationshipEmbedding) walk
        ⟨dedup (kept.map (fun w => w.rel.originalInput)),
         dedup (kept.map (fun w => w.targetEntityName))⟩

/-- The fixed terminal answer (llm.ts:608). -/
def noInfoMessage : String := "No relevant information found in your knowledge base."

/-- `synthesizeAnswerFromContext` (llm.ts:603-653): with no surviving
statements, return the fixed message without consulting the completion
capability; otherwise hand question and statements to the gateway
(`complete`). -/
def synthesizeAnswerFromContext (complete : String → List String → String)
    (query : String) (originalInputs : List String) : String :=
  match originalInputs with
  | [] => noInfoMessage
  | _ :: _ => complete query originalInputs

/-- What the retrieval request responds with (part_011:300-307; the query-log
side table is not modelled — no claim concerns it). -/
structure SmartSearchResponse where
  answer : String
  originalInputs : List String
  targetEntities : List String
  deriving Repr, DecidableEq

/-- The retrieval request (`POST /api/smart-search`, part_011:235-307):
the query is parsed by the gateway into entity mentions and a relationship
phrase (passed here already parsed), the phrase is embedded, the knowledge
graph searched, and the answer synthesized from the surviving original
statements. -/
def smartSearch (cosDist : List ℚ → List ℚ → ℚ) (embedText : String → List ℚ)
    (complete : String → List String → String) (db : Db) (userId : Nat)
    (parsedEntities : List String) (parsedRelationship : String)
    (query : String) : SmartSearchResponse :=
  let relationshipEmbedding := embedText parsedRelationship
  let searchResults := searchKnowledgeGraph cosDist embedText db userId
    parsedEntities relationshipEmbedding
  ⟨synthesizeAnswerFromContext complete query searchResults.originalInputs,
   searchResults.originalInputs, searchResults.targetEntities⟩

/-! ## The relationship-embedding search (storage.ts:1101-1206) -/

/-- The SQL `CASE` scoring of `searchRelationshipsByEmbedding`
(storage.ts:1149-1152): cosine distance against `relationship_desc_vec` when
present, else against `relationship_vec` (the label embedding). -/
def relationshipSearchDistance (cosDist : List ℚ → List ℚ → ℚ) (qEmb : List ℚ)
    (r : Relationship) : ℚ :=
  match r.relationshipDescVec with
  | some v => cosDist qEmb v
  | none => cosDist qEmb r.relationshipVec

/-- A row of the relationship-embedding search: the edge joined with both
entity names and its computed distance. -/
structure RelSearchRow where
  rel : Relationship
  sourceEntityName : String
  targetEntityName : String
  distance : ℚ
  deriving Repr, DecidableEq

/-- `searchRelationshipsByEmbedding` (storage.ts:1144-1164): the user's edges
joined with their entities, kept under the 0.8 ceiling, ordered by distance,
`LIMIT 5`. -/
def searchRelationshipsByEmbedding (cosDist : List ℚ → List ℚ → ℚ) (db : Db)
    (userId : Nat) (qEmb : List ℚ) : List RelSearchRow :=
  let rows := db.relationships.filterMap (fun r =>
    if r.userId = userId then
      match entityById db r.sourceEntityId, entityById db r.targetEntityId with
      | some e1, some e2 =>
        some (⟨r, e1.name, e2.name, relationshipSearchDistance cosDist qEmb r⟩ : RelSearchRow)
      | _, _ => none
    else none)
  (sortByKey (fun row => (row.distance : WithBot ℚ))
    (rows.filter (fun row => decide (row.distance < 8 / 10)))).take 5

/-- `searchEntitiesByDescription` (storage.ts:1023-1035): the user's entities
ordered by description distance, `LIMIT 10`, then rows without an embedding
dropped. -/
def searchEntitiesByDescription (cosDist : List ℚ → List ℚ → ℚ) (db : Db)
    (userId : Nat) (qEmb : List ℚ) : List Entity :=
  ((sortByKey (descDistKey cosDist qEmb)
      (db.entities.filter (fun e => decide (e.userId = userId)))).take 10).filter
    (fun e => e.descriptionVec.isSome)

/-! ## Ingestion: the gateway and the storage mutations -/

/-- One extracted fragment (llm.ts:361-366, the `EntityRelationship`
interface): a triple plus the `aliases` flag set by extraction for
entity-is-entity statements (llm.ts:386, :451-456). -/
structure Fragment where
  sourceEntity : String
  relationship : String
  targetEntity : String
  aliases : Bool
  deriving Repr, DecidableEq

/-- The external language-model service (llm.ts), as consumed by this core.
`extract`, `embed` and `genEntityDescription` rethrow on failure
(llm.ts:466-469, :542-545, :597-600); `genRelationshipDescription` catches its
own failure and falls back to a fixed sentence (llm.ts:522-526), so it is
total here. -/
structure Gateway where
  extract : String → String → Except String (List Fragment)
  embed : String → Except String (List ℚ)
  genEntityDescription : String → String → Except String String
  genRelationshipDescription : String → String → String → String

/-- Auto-increment id for a new entity row. -/
def freshEntityId (db : Db) : Nat := (db.entities.map (fun e => e.id)).foldr max 0 + 1

/-- Auto-increment id for a new relationship row. -/
def freshRelationshipId (db : Db) : Nat :=
  (db.relationships.map (fun r => r.id)).foldr max 0 + 1

/-- `getOrCreateEntity` (storage.ts:236-291): exact lookup; on a miss,
generate a description and its embedding via the gateway and insert.  A
duplicate-key insert error (Postgres 23505 / MySQL ER_DUP_ENTRY) is caught by
re-reading and returning the winning row — the inner re-read mirrors that
catch (in this sequential model it never fires). -/
def getOrCreateEntity (gw : Gateway) (db : Db) (userId : Nat)
    (entityName username : String) : Except String (Entity × Db) :=
  match findEntity db userId entityName with
  | some existingEntity => .ok (existingEntity, db)
  | none =>
    match gw.genEntityDescription entityName username with
    | .error e => .error e
    | .ok description =>
      match gw.embed description with
      | .error e => .error e
      | .ok descriptionVec =>
        match findEntity db userId entityName with
        | some winner => .ok (winner, db)
        | none =>
          let row : Entity :=
            { id := freshEntityId db, userId := userId, name := entityName,
              description := some description, descriptionVec := some descriptionVec }
          .ok (row, { db with entities := db.entities ++ [row] })

/-- The values handed to a relationship insert (an `InsertRelationship`,
shared/schema.ts: the row minus its generated id). -/
structure InsertRelationship where
  userId : Nat
  sourceEntityId : Nat
  targetEntityId : Nat
  relationship : String
  relationshipVec : List ℚ
  relationshipDesc : Option String
  relationshipDescVec : Option (List ℚ)
  originalInput : String
  deriving Repr, DecidableEq

/-- The inserted row with its assigned id. -/
def InsertRelationship.toRow (ins : InsertRelationship) (id : Nat) : Relationship :=
  { id := id, userId := ins.userId, sourceEntityId := ins.sourceEntityId,
    targetEntityId := ins.targetEntityId, relationship := ins.relationship,
    relationshipVec := ins.relationshipVec, relationshipDesc := ins.relationshipDesc,
    relationshipDescVec := ins.relationshipDescVec, originalInput := ins.originalInput }

/-- The unique key of the `relationships` table
(`user_id, source_entity_id, relationship, target_entity_id`). -/
def relKeyMatches (ins : InsertRelationship) (r : Relationship) : Bool :=
  decide (r.userId = ins.userId ∧ r.sourceEntityId = ins.sourceEntityId ∧
          r.relationship = ins.relationship ∧ r.targetEntityId = ins.targetEntityId)

/-- `createRelationship` (storage.ts:293-319): attempt the insert; the unique
index rejects it exactly when a key-matching row already exists, in which
case the 23505 handler fetches and returns that existing row — the duplicate
is never surfaced to the caller. -/
def createRelationship (db : Db) (ins : InsertRelationship) : Relationship × Db :=
  match db.relationships.find? (relKeyMatches ins) with
  | some existing => (existing, db)
  | none =>
    let row := ins.toRow (freshRelationshipId db)
    (row, { db with relationships := db.relationships ++ [row] })

/-- The appended description text (storage.ts:350-352). -/
def appendContext (desc : Option String) (additionalContext : String) : String :=
  match desc with
  | some d => d ++ "\n\nAdditional context: " ++ additionalContext
  | none => "Additional context: " ++ additionalContext

/-- `updateEntityContext` (storage.ts:332-384): requires the entity to exist,
appends the snippet to its description, re-embeds the whole description via
the gateway, and updates the row. -/
def updateEntityContext (gw : Gateway) (db : Db) (userId : Nat)
    (entityName additionalContext : String) : Except String Db :=
  match findEntity db userId entityName with
  | none => .error "entity not found"
  | some existingEntity =>
    let updatedDescription := appendContext existingEntity.description additionalContext
    match gw.embed updatedDescription with
    | .error e => .error e
    | .ok updatedDescriptionVec =>
      .ok { db with entities := db.entities.map (fun e =>
        if e.userId = userId ∧ e.name = entityName then
          { e with description := some updatedDescription,
                   descriptionVec := some updatedDescriptionVec }
        else e) }

/-- `checkEntityExists` (llm.ts:259-281). -/
def entityExists (db : Db) (userId : Nat) (name : String) : Bool :=
  (findEntity db userId name).isSome

/-- One iteration of `detectExistingEntitiesForContextUpdate`'s loop
(llm.ts:235-254): update the source then the target entity's context when
they already exist; an error is caught at this per-fragment level (so a
failing source update skips the same fragment's target update but not later
fragments). -/
def contextUpdateForFragment (gw : Gateway) (db : Db) (userId : Nat)
    (originalInput : String) (rel : Fragment) : Db :=
  let step1 : Except String Db :=
    if entityExists db userId rel.sourceEntity then
      updateEntityContext gw db userId rel.sourceEntity originalInput
    else .ok db
  match step1 with
  | .error _ => db
  | .ok db1 =>
    if entityExists db1 userId rel.targetEntity then
      match updateEntityContext gw db1 userId rel.targetEntity originalInput with
      | .error _ => db1
      | .ok db2 => db2
    else db1

/-- `detectExistingEntitiesForContextUpdate` (llm.ts:223-257): best-effort
context append for every already-existing entity mentioned by any fragment. -/
def detectExistingEntitiesForContextUpdate (gw : Gateway) (userId : Nat)
    (originalInput : String) : Db → List Fragment → Db
  | db, [] => db
  | db, rel :: rest =>
    detectExistingEntitiesForContextUpdate gw userId originalInput
      (contextUpdateForFragment gw db userId originalInput rel) rest

/-! ## Ingestion: the request (part_012:125-218) -/

/-- One iteration of the per-fragment loop (part_012:163-204): resolve/create
both entities, embed the label, generate and embed the elaborated
description, write the edge.  Returns the database after whatever mutations
succeeded and whether the iteration threw.  Every fragment is processed
identically — the `aliases` flag is never consulted. -/
def processFragment (gw : Gateway) (db : Db) (userId : Nat)
    (username content : String) (er : Fragment) : Db × Bool :=
  match getOrCreateEntity gw db userId er.sourceEntity username with
  | .error _ => (db, true)
  | .ok (sourceEntity, db1) =>
    match getOrCreateEntity gw db1 userId er.targetEntity username with
    | .error _ => (db1, true)
    | .ok (targetEntity, db2) =>
      match gw.embed er.relationship with
      | .error _ => (db2, true)
      | .ok relationshipEmbedding =>
        let relationshipDescription :=
          gw.genRelationshipDescription er.sourceEntity er.relationship er.targetEntity
        match gw.embed relationshipDescription with
        | .error _ => (db2, true)
        | .ok relationshipDescEmbedding =>
          let step := createRelationship db2
            { userId := userId, sourceEntityId := sourceEntity.id,
              targetEntityId := targetEntity.id, relationship := er.relationship,
              relationshipVec := relationshipEmbedding,
              relationshipDesc := some relationshipDescription,
              relationshipDescVec := some relationshipDescEmbedding,
              originalInput := content }
          (step.2, false)

/-- The `for (const er of entityRelationships)` loop (part_012:163-204).  The
try/catch sits OUTSIDE this loop (part_012:142,208), so the first iteration
that throws ends the loop: the remaining fragments are never processed. -/
def processFragments (gw : Gateway) (userId : Nat) (username content : String) :
    Db → List Fragment → Db × Bool
  | db, [] => (db, false)
  | db, er :: rest =>
    match processFragment gw db userId username content er with
    | (db1, true) => (db1, true)
    | (db1, false) => processFragments gw userId username content db1 rest

/-- The ingestion request body (`POST /api/inputs`, part_012:125-218): persist
the raw statement, then — inside a catch that swallows any enrichment error —
extract fragments, append context for existing entities, and run the
per-fragment loop.  Returns the final database and whether the request took
the success path (`res.json(input)`), which it always does once the raw
statement is saved. -/
def ingestStatement (gw : Gateway) (db : Db) (userId : Nat)
    (username content : String) : Db × Bool :=
  let db0 : Db := { db with inputs := db.inputs ++ [(userId, content)] }
  match gw.extract content username with
  | .error _ => (db0, true)
  | .ok entityRelationships =>
    let db1 := detectExistingEntitiesForContextUpdate gw userId content db0
      entityRelationships
    ((processFragments gw userId username content db1 entityRelationships).1, true)

/-! ## Derived notions the theorems speak about -/

/-- Replace a relationship's two embedding columns (arbitrarily, possibly
depending on the whole row). -/
def Relationship.reembed (F : Relationship → List ℚ) (Fd : Relationship → Option (List ℚ))
    (r : Relationship) : Relationship :=
  { r with relationshipVec := F r, relationshipDescVec := Fd r }

/-- Replace an entity's embedding column. -/
def Entity.reembed (G : Entity → Option (List ℚ)) (e : Entity) : Entity :=
  { e with descriptionVec := G e }

/-- A walk row after its relationship's embeddings were replaced. -/
def WalkRow.reembed (F : Relationship → List ℚ) (Fd : Relationship → Option (List ℚ))
    (w : WalkRow) : WalkRow :=
  ⟨Relationship.reembed F Fd w.rel, w.targetEntityName⟩

/-- The same database with every embedding column rewritten and everything
structural untouched. -/
def Db.reembed (F : Relationship → List ℚ) (Fd : Relationship → Option (List ℚ))
    (G : Entity → Option (List ℚ)) (db : Db) : Db :=
  { db with entities := db.entities.map (Entity.reembed G),
            relationships := db.relationships.map (Relationship.reembed F Fd) }

/-- Reachability within the walk's fixed two-hop bound: the edge belongs to
the user, its target joins to an entity row carrying the row's name, and its
source is the anchor itself (first edge) or the join-visible target of one of
the anchor's own edges (second edge). -/
def InWalk (db : Db) (userId anchorId : Nat) (w : WalkRow) : Prop :=
  w.rel ∈ db.relationships ∧ w.rel.userId = userId ∧
    walkRowOf db w.rel = some w ∧
    (w.rel.sourceEntityId = anchorId ∨
      ∃ r1 ∈ db.relationships, r1.userId = userId ∧ r1.sourceEntityId = anchorId ∧
        (walkRowOf db r1).isSome ∧ w.rel.sourceEntityId = r1.targetEntityId)

/-- The data-model invariant (spec §3): no relationship references an entity
outside its own user. -/
def EdgesSameUser (db : Db) : Prop :=
  ∀ r ∈ db.relationships, ∀ e ∈ db.entities,
    (e.id = r.sourceEntityId ∨ e.id = r.targetEntityId) → e.userId = r.userId

/-- Number of entity rows carrying a given `(user_id, name)` unique key. -/
def entityKeyCount (db : Db) (userId : Nat) (name : String) : Nat :=
  (db.entities.filter (fun e => decide (e.userId = userId ∧ e.name = name))).length

/-- Number of relationship rows carrying a given unique key. -/
def relKeyCount (db : Db) (ins : InsertRelationship) : Nat :=
  (db.relationships.filter (relKeyMatches ins)).length

/-! ## Concrete instances (evaluated by the counterexamples and the concrete
conjuncts of the claim theorems) -/

/-- Distance kernel for concrete runs: 0 between equal vectors, else 1. -/
def cosDistEq : List ℚ → List ℚ → ℚ := fun a b => if a = b then 0 else 1

/-- Embedding oracle for concrete retrieval runs. -/
def embedZero : String → List ℚ := fun _ => [0]

/-- A brand-new deployment. -/
def dbEmpty : Db := ⟨[], [], []⟩

def eSam : Entity := ⟨1, 1, "sam", some "the user", some [0]⟩

def eJake : Entity := ⟨2, 1, "jake", some "country artist", some [1]⟩

def eBobUser2 : Entity := ⟨3, 2, "bob", some "another user", some [0]⟩

def rSamJake : Relationship :=
  ⟨1, 1, 1, 2, "favorite country artist is", [1], some "top preference", some [1],
   "Jake Owen is my favorite country artist"⟩

def rBobUser2 : Relationship :=
  ⟨2, 2, 3, 3, "likes", [1], some "likes", some [1], "bob likes himself"⟩

/-- Two users: user 1 owns `sam --favorite--> jake`, user 2 owns an edge of
their own. -/
def dbTwoUsers : Db := ⟨[eSam, eJake, eBobUser2], [rSamJake, rBobUser2], []⟩

/-- User 1's edge again, but with no elaborated description and no
description embedding — only the label embedding `[1]`. -/
def rNoDesc : Relationship :=
  ⟨1, 1, 1, 2, "favorite country artist is", [1], none, none,
   "Jake Owen is my favorite country artist"⟩

def dbNoDesc : Db := ⟨[eSam, eJake], [rNoDesc], []⟩

def rowNoDesc : WalkRow := ⟨rNoDesc, "jake"⟩

/-- A gateway whose every capability succeeds with fixed output. -/
def gwOk : Gateway :=
  { extract := fun _ _ => .ok [],
    embed := fun _ => .ok [0],
    genEntityDescription := fun _ _ => .ok "a generated description",
    genRelationshipDescription := fun _ _ _ => "a generated relationship description" }

/-- The alias fragment of the extraction prompt's own worked example
(llm.ts:386,411), with the placeholder already substituted. -/
def aliasFragment : Fragment := ⟨"Bob", "is", "my husband", true⟩

/-- A gateway whose extraction returns exactly the alias fragment. -/
def gwAlias : Gateway :=
  { gwOk with extract := fun _ _ => .ok [aliasFragment] }

def fragFail : Fragment := ⟨"alpha", "failing relationship", "beta", false⟩

def fragOk : Fragment := ⟨"gamma", "works with", "delta", false⟩

/-- An embedding oracle that fails exactly on the first fragment's label
(a generation-service error mid-list). -/
def embedPicky : String → Except String (List ℚ) :=
  fun s => if s = "failing relationship" then .error "embedding service down" else .ok [0]

/-- Extraction yields two fragments; embedding the first fragment's label
fails. -/
def gwTwoFragments : Gateway :=
  { gwOk with extract := fun _ _ => .ok [fragFail, fragOk], embed := embedPicky }

/-- The same gateway, extraction yielding only the second fragment. -/
def gwSecondOnly : Gateway :=
  { gwOk with extract := fun _ _ => .ok [fragOk], embed := embedPicky }

/-! # Theorems -/

/-! ## Arithmetic of the adaptive band -/

theorem variance_nonneg (ds : List ℚ) : 0 ≤ variance ds := by
  unfold variance
  apply div_nonneg
  · apply List.sum_nonneg
    intro x hx
    rcases List.mem_map.mp hx with ⟨d, _, rfl⟩
    positivity
  · positivity

theorem withinBand_iff_real (m v d : ℚ) (hv : 0 ≤ v) :
    withinBand m v d = true ↔ (d : ℝ) ≤ (m : ℝ) + Real.sqrt (v : ℝ) := by
  unfold withinBand
  rw [Bool.or_eq_true, decide_eq_true_eq, decide_eq_true_eq]
  constructor
  · rintro (h | h)
    · have hs : (0 : ℝ) ≤ Real.sqrt (v : ℝ) := Real.sqrt_nonneg _
      have hdm : (d : ℝ) ≤ (m : ℝ) := by exact_mod_cast h
      linarith
    · have h' : ((d : ℝ) - (m : ℝ)) ^ 2 ≤ (v : ℝ) := by exact_mod_cast h
      have := Real.le_sqrt_of_sq_le h'
      linarith
  · intro h
    rcases le_or_lt d m with hdm | hdm
    · exact Or.inl hdm
    · right
      have hd : (0 : ℝ) ≤ (d : ℝ) - (m : ℝ) := by
        have : (m : ℝ) < (d : ℝ) := by exact_mod_cast hdm
        linarith
      have hle : ((d : ℝ) - (m : ℝ)) ≤ Real.sqrt (v : ℝ) := by linarith
      have h2 := (Real.le_sqrt hd (by exact_mod_cast hv)).mp hle
      have h3 : ((d - m : ℚ) : ℝ) ^ 2 ≤ ((v : ℚ) : ℝ) := by push_cast; push_cast at h2; linarith
      exact_mod_cast h3

theorem mem_adaptiveFilter {α : Type} (dist : α → ℚ) (xs : List α) (x : α) :
    x ∈ adaptiveFilter dist xs ↔
      x ∈ xs ∧ underCeiling (dist x) = true ∧
        withinBand (mean ((xs.filter (fun y => underCeiling (dist y))).map dist))
          (variance ((xs.filter (fun y => underCeiling (dist y))).map dist))
          (dist x) = true := by
  simp only [adaptiveFilter]
  cases hE : (xs.filter (fun y => underCeiling (dist y))).isEmpty with
  | true =>
    rw [if_pos rfl]
    constructor
    · intro hx
      exact absurd hx (List.not_mem_nil x)
    · rintro ⟨hxs, hc, -⟩
      have hmem : x ∈ xs.filter (fun y => underCeiling (dist y)) :=
        List.mem_filter.mpr ⟨hxs, hc⟩
      rw [List.isEmpty_iff] at hE
      rw [hE] at hmem
      exact absurd hmem (List.not_mem_nil x)
  | false =>
    rw [if_neg (by simp [hE])]
    rw [List.mem_filter, List.mem_filter]
    tauto

theorem mem_insertByKey {α : Type} (key : α → WithBot ℚ) (x a : α) (l : List α) :
    a ∈ insertByKey key x l ↔ a = x ∨ a ∈ l := by
  induction l with
  | nil => simp [insertByKey]
  | cons y ys ih =>
    by_cases h : key y ≤ key x
    · simp only [insertByKey, if_pos h, List.mem_cons, ih]
      try tauto
    · simp only [insertByKey, if_neg h, List.mem_cons]
      try tauto

theorem mem_sortByKey {α : Type} (key : α → WithBot ℚ) (a : α) (l : List α) :
    a ∈ sortByKey key l ↔ a ∈ l := by
  induction l with
  | nil => simp [sortByKey]
  | cons x xs ih => simp [sortByKey, mem_insertByKey, ih]

/-! ## Claim C1 -/

theorem underCeiling_of_lt {d : ℚ} (h : d < 76 / 100) : underCeiling d = true := by
  simp only [underCeiling, decide_eq_true_eq]
  exact h

theorem underCeiling_of_ge {d : ℚ} (h : ¬ d < 76 / 100) : underCeiling d = false := by
  simp only [underCeiling, decide_eq_false_iff_not]
  exact h

theorem filter_concrete :
    (([1/10, 3/25, 1/2, 9/10] : List ℚ).filter (fun d => underCeiling d))
      = [1/10, 3/25, 1/2] := by
  rw [List.filter_cons, List.filter_cons, List.filter_cons, List.filter_cons, List.filter_nil]
  rw [underCeiling_of_lt (by norm_num), underCeiling_of_lt (by norm_num),
      underCeiling_of_lt (by norm_num), underCeiling_of_ge (by norm_num)]
  simp

theorem mean_concrete : mean ([1/10, 3/25, 1/2] : List ℚ) = 6/25 := by
  simp only [mean, List.sum_cons, List.sum_nil, List.length_cons, List.length_nil]
  norm_num

theorem variance_concrete : variance ([1/10, 3/25, 1/2] : List ℚ) = 127/3750 := by
  simp only [variance, mean_concrete, List.map_cons, List.map_nil, List.sum_cons,
    List.sum_nil, List.length_cons, List.length_nil]
  norm_num

theorem withinBand_of_le {m v d : ℚ} (h : d ≤ m) : withinBand m v d = true := by
  simp only [withinBand, Bool.or_eq_true, decide_eq_true_eq]
  exact Or.inl h

theorem withinBand_of_gt {m v d : ℚ} (h1 : ¬ d ≤ m) (h2 : ¬ (d - m) ^ 2 ≤ v) :
    withinBand m v d = false := by
  simp only [withinBand, Bool.or_eq_false_iff, decide_eq_false_iff_not]
  exact ⟨h1, h2⟩

theorem adaptiveFilter_concrete :
    adaptiveFilter (fun d => d) ([1/10, 3/25, 1/2, 9/10] : List ℚ) = [1/10, 3/25] := by
  simp only [adaptiveFilter]
  rw [show (([1/10, 3/25, 1/2, 9/10] : List ℚ).filter (fun d => underCeiling d))
        = [1/10, 3/25, 1/2] from filter_concrete]
  rw [show (([1/10, 3/25, 1/2] : List ℚ).map (fun d => d)) = [1/10, 3/25, 1/2] by simp]
  rw [mean_concrete, variance_concrete]
  rw [List.filter_cons, List.filter_cons, List.filter_cons, List.filter_nil]
  rw [withinBand_of_le (by norm_num), withinBand_of_le (by norm_num),
      withinBand_of_gt (by norm_num) (by norm_num)]
  simp

/-- Claim C1, counterexample: on the candidate distance set
`[0.1, 0.12, 0.5, 0.9]` the filter does keep exactly `{0.1, 0.12}`, but the
statistics the claim quotes are not the code's: the mean is computed over the
post-ceiling remainder `[0.1, 0.12, 0.5]` and equals `0.24`, not within even
`0.1` of the claimed `≈ 0.405` (which is the mean of all four distances,
ignoring the ceiling the claim itself puts first — and a threshold
`≈ 0.745` would have kept `0.5`, which the code excludes). -/
theorem C1_counterexample :
    mean (([1/10, 3/25, 1/2, 9/10] : List ℚ).filter (fun d => underCeiling d)) = 6/25 ∧
    ¬ |mean (([1/10, 3/25, 1/2, 9/10] : List ℚ).filter (fun d => underCeiling d))
        - 405/1000| < 1/10 ∧
    adaptiveFilter (fun d => d) ([1/10, 3/25, 1/2, 9/10] : List ℚ) = [1/10, 3/25] := by
  refine ⟨?_, ?_, adaptiveFilter_concrete⟩
  · rw [filter_concrete, mean_concrete]
  · rw [filter_concrete, mean_concrete]
    rw [abs_of_neg (by norm_num : (6/25 : ℚ) - 405/1000 < 0)]
    norm_num

/-- Claim C1 (amended): the adaptive filter first discards the candidates at
or above the coarse ceiling `0.76`, then keeps exactly the remaining
candidates with distance `≤ μ + σ`, where μ and σ are the mean and standard
deviation of the post-ceiling distances.  On `[0.1, 0.12, 0.5, 0.9]` the
ceiling removes `0.9`; on the remainder `[0.1, 0.12, 0.5]` the mean is
`0.24` and `σ² = 127/3750`, so the threshold `μ + σ` is below `0.43`, and
the filter keeps `{0.1, 0.12}` and excludes `{0.5, 0.9}`. -/
theorem C1_adaptive_filter :
    (∀ (xs : List ℚ) (d : ℚ),
        d ∈ adaptiveFilter (fun x => x) xs ↔
          d ∈ xs ∧ d < 76 / 100 ∧
            (d : ℝ) ≤ ((mean (xs.filter (fun y => underCeiling y)) : ℚ) : ℝ) +
              Real.sqrt ((variance (xs.filter (fun y => underCeiling y)) : ℚ) : ℝ)) ∧
    adaptiveFilter (fun d => d) ([1/10, 3/25, 1/2, 9/10] : List ℚ) = [1/10, 3/25] ∧
    ([1/10, 3/25, 1/2, 9/10] : List ℚ).filter (fun d => underCeiling d)
      = [1/10, 3/25, 1/2] ∧
    mean ([1/10, 3/25, 1/2] : List ℚ) = 6/25 ∧
    variance ([1/10, 3/25, 1/2] : List ℚ) = 127/3750 ∧
    (6/25 : ℝ) + Real.sqrt ((127 : ℝ)/3750) < 43/100 := by
  refine ⟨?_, adaptiveFilter_concrete, filter_concrete, mean_concrete, variance_concrete, ?_⟩
  · intro xs d
    have base := mem_adaptiveFilter (fun x => x) xs d
    simp only [List.map_id'] at base
    rw [base]
    constructor
    · rintro ⟨hmem, hc, hband⟩
      refine ⟨hmem, of_decide_eq_true hc, ?_⟩
      exact (withinBand_iff_real _ _ _ (variance_nonneg _)).mp hband
    · rintro ⟨hmem, hc, hband⟩
      refine ⟨hmem, decide_eq_true hc, ?_⟩
      exact (withinBand_iff_real _ _ _ (variance_nonneg _)).mpr hband
  · have hs : Real.sqrt ((127 : ℝ)/3750) < 19/100 := by
      rw [Real.sqrt_lt' (by norm_num : (0 : ℝ) < 19/100)]
      norm_num
    linarith

/-! ## The graph walk: characterization and structural independence -/

theorem walkRowOf_some {db : Db} {r : Relationship} {w : WalkRow} :
    walkRowOf db r = some w ↔
      ∃ e, entityById db r.targetEntityId = some e ∧ w = ⟨r, e.name⟩ := by
  simp only [walkRowOf, Option.map_eq_some']
  constructor
  · rintro ⟨e, he, rfl⟩
    exact ⟨e, he, rfl⟩
  · rintro ⟨e, he, rfl⟩
    exact ⟨e, he, rfl⟩

theorem walkRowOf_rel {db : Db} {r : Relationship} {w : WalkRow}
    (h : walkRowOf db r = some w) : w.rel = r := by
  rcases walkRowOf_some.mp h with ⟨e, -, rfl⟩
  rfl

theorem mem_firstEdges {db : Db} {u a : Nat} {w : WalkRow} :
    w ∈ firstEdges db u a ↔
      w.rel ∈ db.relationships ∧ w.rel.userId = u ∧ w.rel.sourceEntityId = a ∧
        walkRowOf db w.rel = some w := by
  unfold firstEdges
  rw [List.mem_filterMap]
  constructor
  · rintro ⟨r, hr, hfr⟩
    by_cases hc : r.userId = u ∧ r.sourceEntityId = a
    · rw [if_pos hc] at hfr
      have hwr : w.rel = r := walkRowOf_rel hfr
      rw [hwr]
      exact ⟨hr, hc.1, hc.2, hfr⟩
    · rw [if_neg hc] at hfr
      exact absurd hfr (Option.noConfusion)
  · rintro ⟨hmem, hu, ha, hw⟩
    refine ⟨w.rel, hmem, ?_⟩
    rw [if_pos ⟨hu, ha⟩]
    exact hw

theorem mem_secondEdges {db : Db} {u : Nat} {ts : List Nat} {w : WalkRow} :
    w ∈ secondEdges db u ts ↔
      w.rel ∈ db.relationships ∧ w.rel.userId = u ∧ w.rel.sourceEntityId ∈ ts ∧
        walkRowOf db w.rel = some w := by
  unfold secondEdges
  rw [List.mem_filterMap]
  constructor
  · rintro ⟨r, hr, hfr⟩
    by_cases hc : r.userId = u ∧ r.sourceEntityId ∈ ts
    · rw [if_pos hc] at hfr
      have hwr : w.rel = r := walkRowOf_rel hfr
      rw [hwr]
      exact ⟨hr, hc.1, hc.2, hfr⟩
    · rw [if_neg hc] at hfr
      exact absurd hfr (Option.noConfusion)
  · rintro ⟨hmem, hu, ha, hw⟩
    refine ⟨w.rel, hmem, ?_⟩
    rw [if_pos ⟨hu, ha⟩]
    exact hw

theorem mem_firstEdge_targets {db : Db} {u a : Nat} {t : Nat} :
    t ∈ (firstEdges db u a).map (fun w => w.rel.targetEntityId) ↔
      ∃ r1 ∈ db.relationships, r1.userId = u ∧ r1.sourceEntityId = a ∧
        (walkRowOf db r1).isSome ∧ t = r1.targetEntityId := by
  rw [List.mem_map]
  constructor
  · rintro ⟨w1, hw1, rfl⟩
    rcases mem_firstEdges.mp hw1 with ⟨hmem, hu, ha, hw⟩
    exact ⟨w1.rel, hmem, hu, ha, by rw [hw]; rfl, rfl⟩
  · rintro ⟨r1, hr1, hu, ha, hsome, rfl⟩
    rcases Option.isSome_iff_exists.mp hsome with ⟨w1, hw1⟩
    have hrel : w1.rel = r1 := walkRowOf_rel hw1
    refine ⟨w1, mem_firstEdges.mpr ⟨hrel ▸ hr1, hrel ▸ hu, hrel ▸ ha, hrel ▸ hw1⟩, by rw [hrel]⟩

theorem mem_graphWalk {db : Db} {u a : Nat} {w : WalkRow} :
    w ∈ graphWalk db u a ↔ InWalk db u a w := by
  simp only [graphWalk, InWalk]
  rw [List.mem_append]
  cases hE : ((firstEdges db u a).map (fun w => w.rel.targetEntityId)).isEmpty with
  | true =>
    rw [if_pos rfl]
    rw [List.isEmpty_iff, List.map_eq_nil_iff] at hE
    constructor
    · rintro (hfe | hnil)
      · rw [hE] at hfe
        exact absurd hfe (List.not_mem_nil w)
      · exact absurd hnil (List.not_mem_nil w)
    · rintro ⟨hmem, hu, hw, ha | ⟨r1, hr1, hu1, ha1, hsome1, -⟩⟩
      · have : w ∈ firstEdges db u a := mem_firstEdges.mpr ⟨hmem, hu, ha, hw⟩
        rw [hE] at this
        exact absurd this (List.not_mem_nil w)
      · rcases Option.isSome_iff_exists.mp hsome1 with ⟨w1, hw1⟩
        have hrel : w1.rel = r1 := walkRowOf_rel hw1
        have : w1 ∈ firstEdges db u a :=
          mem_firstEdges.mpr ⟨hrel ▸ hr1, hrel ▸ hu1, hrel ▸ ha1, hrel ▸ hw1⟩
        rw [hE] at this
        exact absurd this (List.not_mem_nil w1)
  | false =>
    rw [if_neg (by simp)]
    rw [mem_firstEdges, mem_secondEdges, mem_firstEdge_targets]
    constructor
    · rintro (⟨hm, hu, ha, hw⟩ | ⟨hm, hu, hts, hw⟩)
      · exact ⟨hm, hu, hw, Or.inl ha⟩
      · exact ⟨hm, hu, hw, Or.inr hts⟩
    · rintro ⟨hm, hu, hw, ha | hts⟩
      · exact Or.inl ⟨hm, hu, ha, hw⟩
      · exact Or.inr ⟨hm, hu, hts, hw⟩

theorem entityById_reembed (F : Relationship → List ℚ) (Fd : Relationship → Option (List ℚ))
    (G : Entity → Option (List ℚ)) (db : Db) (id : Nat) :
    entityById (Db.reembed F Fd G db) id = (entityById db id).map (Entity.reembed G) := by
  simp only [entityById, Db.reembed]
  rw [List.find?_map]
  rfl

theorem reembed_userId (F : Relationship → List ℚ) (Fd : Relationship → Option (List ℚ))
    (r : Relationship) : (Relationship.reembed F Fd r).userId = r.userId := rfl

theorem reembed_sourceEntityId (F : Relationship → List ℚ)
    (Fd : Relationship → Option (List ℚ)) (r : Relationship) :
    (Relationship.reembed F Fd r).sourceEntityId = r.sourceEntityId := rfl

theorem reembed_targetEntityId (F : Relationship → List ℚ)
    (Fd : Relationship → Option (List ℚ)) (r : Relationship) :
    (Relationship.reembed F Fd r).targetEntityId = r.targetEntityId := rfl

theorem walkRowOf_reembed (F : Relationship → List ℚ) (Fd : Relationship → Option (List ℚ))
    (G : Entity → Option (List ℚ)) (db : Db) (r : Relationship) :
    walkRowOf (Db.reembed F Fd G db) (Relationship.reembed F Fd r) =
      (walkRowOf db r).map (WalkRow.reembed F Fd) := by
  simp only [walkRowOf, entityById_reembed, reembed_targetEntityId]
  cases entityById db r.targetEntityId with
  | none => rfl
  | some e => rfl

theorem firstEdges_reembed (F : Relationship → List ℚ) (Fd : Relationship → Option (List ℚ))
    (G : Entity → Option (List ℚ)) (db : Db) (u a : Nat) :
    firstEdges (Db.reembed F Fd G db) u a = (firstEdges db u a).map (WalkRow.reembed F Fd) := by
  unfold firstEdges
  rw [show (Db.reembed F Fd G db).relationships
        = db.relationships.map (Relationship.reembed F Fd) from rfl]
  rw [List.filterMap_map, List.map_filterMap]
  refine List.filterMap_congr ?_
  intro r _
  simp only [Function.comp_apply, reembed_userId, reembed_sourceEntityId]
  by_cases hc : r.userId = u ∧ r.sourceEntityId = a
  · rw [if_pos hc, if_pos hc]
    exact walkRowOf_reembed F Fd G db r
  · rw [if_neg hc, if_neg hc]
    rfl

theorem secondEdges_reembed (F : Relationship → List ℚ) (Fd : Relationship → Option (List ℚ))
    (G : Entity → Option (List ℚ)) (db : Db) (u : Nat) (ts : List Nat) :
    secondEdges (Db.reembed F Fd G db) u ts = (secondEdges db u ts).map (WalkRow.reembed F Fd) := by
  unfold secondEdges
  rw [show (Db.reembed F Fd G db).relationships
        = db.relationships.map (Relationship.reembed F Fd) from rfl]
  rw [List.filterMap_map, List.map_filterMap]
  refine List.filterMap_congr ?_
  intro r _
  simp only [Function.comp_apply, reembed_userId, reembed_sourceEntityId]
  by_cases hc : r.userId = u ∧ r.sourceEntityId ∈ ts
  · rw [if_pos hc, if_pos hc]
    exact walkRowOf_reembed F Fd G db r
  · rw [if_neg hc, if_neg hc]
    rfl

theorem graphWalk_reembed (F : Relationship → List ℚ) (Fd : Relationship → Option (List ℚ))
    (G : Entity → Option (List ℚ)) (db : Db) (u a : Nat) :
    graphWalk (Db.reembed F Fd G db) u a = (graphWalk db u a).map (WalkRow.reembed F Fd) := by
  simp only [graphWalk]
  rw [firstEdges_reembed, List.map_append]
  congr 1
  have htargets : ((firstEdges db u a).map (WalkRow.reembed F Fd)).map
      (fun w => w.rel.targetEntityId) = (firstEdges db u a).map (fun w => w.rel.targetEntityId) := by
    rw [List.map_map]
    rfl
  rw [htargets]
  cases hE : ((firstEdges db u a).map (fun w => w.rel.targetEntityId)).isEmpty with
  | true =>
    rw [if_pos rfl, if_pos rfl]
    rfl
  | false =>
    rw [if_neg (by simp), if_neg (by simp)]
    exact secondEdges_reembed F Fd G db u _

/-! ## Deduplication and assembly -/

theorem mem_dedup_foldl (l acc : List String) (s : String) :
    s ∈ l.foldl (fun acc s => if s ∈ acc then acc else acc ++ [s]) acc ↔
      s ∈ acc ∨ s ∈ l := by
  induction l generalizing acc with
  | nil => simp
  | cons x xs ih =>
    rw [List.foldl_cons, ih]
    by_cases h : x ∈ acc
    · rw [if_pos h]
      simp only [List.mem_cons]
      constructor
      · rintro (hs | hs)
        · exact Or.inl hs
        · exact Or.inr (Or.inr hs)
      · rintro (hs | hs | hs)
        · exact Or.inl hs
        · exact Or.inl (hs ▸ h)
        · exact Or.inr hs
    · rw [if_neg h]
      simp only [List.mem_append, List.mem_singleton, List.mem_cons]
      tauto

theorem mem_dedup (l : List String) (s : String) : s ∈ dedup l ↔ s ∈ l := by
  unfold dedup
  rw [mem_dedup_foldl]
  simp

/-- Anything retrieval surfaces comes from a walked edge: the search's
original inputs are drawn from the walk rooted at the resolved anchor of the
first query entity. -/
theorem surfaced_mem_walk (cosDist : List ℚ → List ℚ → ℚ) (embedText : String → List ℚ)
    (db : Db) (userId : Nat) (entityNames : List String) (rEmb : List ℚ) (s : String)
    (h : s ∈ (searchKnowledgeGraph cosDist embedText db userId entityNames rEmb).originalInputs) :
    ∃ queryEntity aid w, entityNames.head? = some queryEntity ∧
      resolveAnchor cosDist embedText db userId queryEntity = some aid ∧
      w ∈ graphWalk db userId aid ∧ s = w.rel.originalInput := by
  cases entityNames with
  | nil => simp [searchKnowledgeGraph] at h
  | cons qe rest =>
    simp only [searchKnowledgeGraph] at h
    cases hA : resolveAnchor cosDist embedText db userId qe with
    | none =>
      rw [hA] at h
      simp at h
    | some aid =>
      rw [hA] at h
      dsimp only at h
      by_cases hW : (graphWalk db userId aid).isEmpty
      · rw [if_pos hW] at h
        simp at h
      · rw [if_neg hW] at h
        dsimp only at h
        rw [mem_dedup] at h
        rcases List.mem_map.mp h with ⟨w, hw, rfl⟩
        have hwmem : w ∈ graphWalk db userId aid := ((mem_adaptiveFilter _ _ _).mp hw).1
        exact ⟨qe, aid, w, rfl, hA, hwmem, rfl⟩

theorem mean_singleton (d : ℚ) : mean [d] = d := by
  simp [mean]

theorem variance_singleton (d : ℚ) : variance [d] = 0 := by
  simp [variance, mean_singleton]

theorem adaptiveFilter_singleton_near {α : Type} (dist : α → ℚ) (x : α)
    (h : dist x < 76 / 100) : adaptiveFilter dist [x] = [x] := by
  simp only [adaptiveFilter]
  rw [List.filter_cons, List.filter_nil, underCeiling_of_lt h]
  rw [if_pos rfl]
  rw [if_neg (by simp)]
  rw [List.map_cons, List.map_nil, List.filter_cons, List.filter_nil]
  rw [withinBand_of_le (by rw [mean_singleton])]
  rfl

theorem adaptiveFilter_singleton_far {α : Type} (dist : α → ℚ) (x : α)
    (h : ¬ dist x < 76 / 100) : adaptiveFilter dist [x] = [] := by
  simp only [adaptiveFilter]
  rw [List.filter_cons, List.filter_nil, underCeiling_of_ge h]
  simp

/-- The end-to-end concrete retrieval run: user 1 asks about `sam`; the walk
finds the `sam → jake` edge, its description embedding matches the query
exactly (distance 0), it survives ceiling and band, and its provenance
statement is surfaced. -/
theorem searchKG_concrete :
    searchKnowledgeGraph cosDistEq embedZero dbTwoUsers 1 ["sam"] [1] =
      ⟨["Jake Owen is my favorite country artist"], ["jake"]⟩ := by
  have hA : resolveAnchor cosDistEq embedZero dbTwoUsers 1 "sam" = some 1 := rfl
  have hW : graphWalk dbTwoUsers 1 1 = [⟨rSamJake, "jake"⟩] := rfl
  have hscore : scoreWalkRow cosDistEq [1] ⟨rSamJake, "jake"⟩ = 0 := rfl
  simp only [searchKnowledgeGraph, hA, hW]
  rw [if_neg (by simp)]
  rw [adaptiveFilter_singleton_near _ _ (by rw [hscore]; norm_num)]
  rfl

/-! ## Claim C2 -/

/-- Claim C2 (confirmed): the retrieval graph walk is a breadth-first
expansion of outgoing edges from the anchor bounded by the fixed maximum hop
count — two in this code — collecting exactly the edges whose source is the
anchor or a join-visible target of an anchor edge, regardless of relevance
(first conjunct); it never consults embeddings: rewriting every embedding
column arbitrarily leaves the walk unchanged row-for-row (second conjunct);
and everything retrieval surfaces comes from a walked edge, so no edge beyond
the hop bound is ever surfaced (third conjunct).  The last conjunct is a
concrete run where an in-bound edge is surfaced. -/
theorem C2_bounded_walk :
    (∀ (db : Db) (userId anchorId : Nat) (w : WalkRow),
        w ∈ graphWalk db userId anchorId ↔ InWalk db userId anchorId w) ∧
    (∀ (F : Relationship → List ℚ) (Fd : Relationship → Option (List ℚ))
        (G : Entity → Option (List ℚ)) (db : Db) (userId anchorId : Nat),
        graphWalk (Db.reembed F Fd G db) userId anchorId =
          (graphWalk db userId anchorId).map (WalkRow.reembed F Fd)) ∧
    (∀ (cosDist : List ℚ → List ℚ → ℚ) (embedText : String → List ℚ) (db : Db)
        (userId : Nat) (entityNames : List String) (rEmb : List ℚ) (s : String),
        s ∈ (searchKnowledgeGraph cosDist embedText db userId entityNames rEmb).originalInputs →
        ∃ queryEntity aid w, entityNames.head? = some queryEntity ∧
          resolveAnchor cosDist embedText db userId queryEntity = some aid ∧
          w ∈ graphWalk db userId aid ∧ s = w.rel.originalInput) ∧
    (searchKnowledgeGraph cosDistEq embedZero dbTwoUsers 1 ["sam"] [1]).originalInputs =
      ["Jake Owen is my favorite country artist"] := by
  refine ⟨?_, ?_, ?_, ?_⟩
  · intro db userId anchorId w
    exact mem_graphWalk
  · intro F Fd G db userId anchorId
    exact graphWalk_reembed F Fd G db userId anchorId
  · intro cosDist embedText db userId entityNames rEmb s h
    exact surfaced_mem_walk cosDist embedText db userId entityNames rEmb s h
  · rw [searchKG_concrete]

/-! ## Claim C10 -/

/-- Claim C10 (confirmed): retrieval anchoring depends only on the first
entity of the parsed entity list — `searchKnowledgeGraph` on `e :: rest`
equals `searchKnowledgeGraph` on `[e]` for every database, user, distance
kernel, embedding oracle and query embedding; the tail is ignored by
anchoring, the walk and the filter. -/
theorem C10_anchor_first_entity :
    ∀ (cosDist : List ℚ → List ℚ → ℚ) (embedText : String → List ℚ) (db : Db)
      (userId : Nat) (e : String) (rest : List String) (rEmb : List ℚ),
      searchKnowledgeGraph cosDist embedText db userId (e :: rest) rEmb =
        searchKnowledgeGraph cosDist embedText db userId [e] rEmb := by
  intro cosDist embedText db userId e rest rEmb
  rfl

/-! ## Claim C6 -/

/-- Claim C6, counterexample: a walked edge with no description embedding but
a label embedding identical to the query (cosine distance 0 under the given
kernel) is scored with the fixed distance `1.0` — not with the label
fallback — and is therefore discarded by the 0.76 ceiling: retrieval
surfaces nothing, where the claimed fallback would have scored it 0 and kept
it. -/
theorem C6_counterexample :
    rowNoDesc.rel.relationshipDescVec = none ∧
    scoreWalkRow cosDistEq [1] rowNoDesc = 1 ∧
    cosDistEq [1] rowNoDesc.rel.relationshipVec = 0 ∧
    (searchKnowledgeGraph cosDistEq embedZero dbNoDesc 1 ["sam"] [1]).originalInputs = [] := by
  refine ⟨rfl, rfl, rfl, ?_⟩
  have hA : resolveAnchor cosDistEq embedZero dbNoDesc 1 "sam" = some 1 := rfl
  have hW : graphWalk dbNoDesc 1 1 = [rowNoDesc] := rfl
  simp only [searchKnowledgeGraph, hA, hW]
  rw [if_neg (by simp)]
  rw [adaptiveFilter_singleton_far _ _
    (by rw [show scoreWalkRow cosDistEq [1] rowNoDesc = 1 from rfl]; norm_num)]
  rfl

/-- Claim C6 (amended): at retrieval time `searchKnowledgeGraph` scores each
walked edge by cosine distance between the query embedding and the edge's
relationship-description embedding, but an edge with no description embedding
is assigned the fixed distance `1.0` — which the 0.76 ceiling always
discards — rather than falling back to its label embedding; the
label-embedding fallback exists only in `searchRelationshipsByEmbedding`'s
scoring `CASE`. -/
theorem C6_scoring_fallback :
    (∀ (cosDist : List ℚ → List ℚ → ℚ) (qEmb : List ℚ) (w : WalkRow) (v : List ℚ),
        w.rel.relationshipDescVec = some v → scoreWalkRow cosDist qEmb w = cosDist qEmb v) ∧
    (∀ (cosDist : List ℚ → List ℚ → ℚ) (qEmb : List ℚ) (w : WalkRow),
        w.rel.relationshipDescVec = none →
          scoreWalkRow cosDist qEmb w = 1 ∧
          underCeiling (scoreWalkRow cosDist qEmb w) = false) ∧
    (∀ (cosDist : List ℚ → List ℚ → ℚ) (qEmb : List ℚ) (r : Relationship) (v : List ℚ),
        r.relationshipDescVec = some v →
          relationshipSearchDistance cosDist qEmb r = cosDist qEmb v) ∧
    (∀ (cosDist : List ℚ → List ℚ → ℚ) (qEmb : List ℚ) (r : Relationship),
        r.relationshipDescVec = none →
          relationshipSearchDistance cosDist qEmb r = cosDist qEmb r.relationshipVec) := by
  refine ⟨?_, ?_, ?_, ?_⟩
  · intro cosDist qEmb w v h
    simp [scoreWalkRow, h]
  · intro cosDist qEmb w h
    have hs : scoreWalkRow cosDist qEmb w = 1 := by simp [scoreWalkRow, h]
    exact ⟨hs, by rw [hs]; exact underCeiling_of_ge (by norm_num)⟩
  · intro cosDist qEmb r v h
    simp [relationshipSearchDistance, h]
  · intro cosDist qEmb r h
    simp [relationshipSearchDistance, h]

/-! ## Claim C7 -/

theorem no_entities_no_anchor (cosDist : List ℚ → List ℚ → ℚ)
    (embedText : String → List ℚ) (db : Db) (userId : Nat) (qe : String)
    (h : ∀ e ∈ db.entities, e.userId ≠ userId) :
    resolveAnchor cosDist embedText db userId qe = none := by
  have hfind : findEntity db userId qe = none := by
    rw [findEntity, List.find?_eq_none]
    intro e he
    simp only [decide_eq_true_eq]
    rintro ⟨h1, -⟩
    exact h e he h1
  have hfilter : db.entities.filter (fun e => decide (e.userId = userId)) = [] := by
    rw [List.filter_eq_nil_iff]
    intro e he
    simp only [decide_eq_true_eq]
    exact h e he
  simp only [resolveAnchor, hfind, similarEntities, hfilter]
  rfl

theorem searchKG_no_entities (cosDist : List ℚ → List ℚ → ℚ)
    (embedText : String → List ℚ) (db : Db) (userId : Nat) (names : List String)
    (rEmb : List ℚ) (h : ∀ e ∈ db.entities, e.userId ≠ userId) :
    searchKnowledgeGraph cosDist embedText db userId names rEmb = ⟨[], []⟩ := by
  cases names with
  | nil => rfl
  | cons qe rest =>
    simp only [searchKnowledgeGraph,
      no_entities_no_anchor cosDist embedText db userId qe h]

/-- Claim C7 (confirmed): for a user owning zero entities, retrieval
terminates in the fixed "no information" result and the completion capability
is never consulted — the response is literally the same function of the
database for every completion oracle; and in general, whenever no statements
survive, `synthesizeAnswerFromContext` returns the fixed message without
consulting the oracle.  The last conjunct runs the whole retrieval request
concretely on an empty database. -/
theorem C7_no_info :
    (∀ (cosDist : List ℚ → List ℚ → ℚ) (embedText : String → List ℚ)
        (complete : String → List String → String) (db : Db) (userId : Nat)
        (parsedEntities : List String) (parsedRel query : String),
        (∀ e ∈ db.entities, e.userId ≠ userId) →
        smartSearch cosDist embedText complete db userId parsedEntities parsedRel query =
          ⟨noInfoMessage, [], []⟩) ∧
    (∀ (complete complete' : String → List String → String) (query : String),
        synthesizeAnswerFromContext complete query [] = noInfoMessage ∧
        synthesizeAnswerFromContext complete query [] =
          synthesizeAnswerFromContext complete' query []) ∧
    smartSearch cosDistEq embedZero (fun _ _ => "a synthesized answer") dbEmpty 1
      ["sam"] "likes" "who do I like" = ⟨noInfoMessage, [], []⟩ := by
  refine ⟨?_, ?_, rfl⟩
  · intro cosDist embedText complete db userId parsedEntities parsedRel query h
    simp only [smartSearch, searchKG_no_entities cosDist embedText db userId
      parsedEntities (embedText parsedRel) h]
    rfl
  · intro complete complete' query
    exact ⟨rfl, rfl⟩

/-! ## Claim C8 -/

theorem findEntity_props {db : Db} {u : Nat} {n : String} {e : Entity}
    (h : findEntity db u n = some e) : e ∈ db.entities ∧ e.userId = u ∧ e.name = n := by
  have hmem := List.mem_of_find?_eq_some h
  have hp := List.find?_some h
  simp only [decide_eq_true_eq] at hp
  exact ⟨hmem, hp.1, hp.2⟩

theorem entityById_props {db : Db} {id : Nat} {e : Entity}
    (h : entityById db id = some e) : e ∈ db.entities ∧ e.id = id := by
  have hmem := List.mem_of_find?_eq_some h
  have hp := List.find?_some h
  simp only [decide_eq_true_eq] at hp
  exact ⟨hmem, hp⟩

theorem similarEntities_subset {cosDist : List ℚ → List ℚ → ℚ} {db : Db} {u : Nat}
    {qEmb : List ℚ} {e : Entity} (h : e ∈ similarEntities cosDist db u qEmb) :
    e ∈ db.entities ∧ e.userId = u := by
  simp only [similarEntities] at h
  have h1 := List.mem_of_mem_take h
  rw [mem_sortByKey] at h1
  have h2 := List.mem_filter.mp h1
  simp only [decide_eq_true_eq] at h2
  exact h2

theorem resolveAnchor_owned (cosDist : List ℚ → List ℚ → ℚ)
    (embedText : String → List ℚ) (db : Db) (userId : Nat) (qe : String) (aid : Nat)
    (h : resolveAnchor cosDist embedText db userId qe = some aid) :
    ∃ e ∈ db.entities, e.userId = userId ∧ e.id = aid := by
  simp only [resolveAnchor] at h
  cases hf : findEntity db userId qe with
  | some e =>
    rw [hf] at h
    rcases findEntity_props hf with ⟨hm, hu, -⟩
    exact ⟨e, hm, hu, Option.some.inj h⟩
  | none =>
    rw [hf] at h
    rcases Option.map_eq_some'.mp h with ⟨e, hhead, rfl⟩
    have hmem : e ∈ similarEntities cosDist db userId (embedText qe) :=
      List.mem_of_mem_head? (Option.mem_def.mpr hhead)
    rcases similarEntities_subset hmem with ⟨hm, hu⟩
    exact ⟨e, hm, hu, rfl⟩

theorem graphWalk_owned {db : Db} {u aid : Nat} {w : WalkRow}
    (hwf : EdgesSameUser db) (hw : w ∈ graphWalk db u aid) :
    w.rel.userId = u ∧ ∃ e ∈ db.entities, e.userId = u ∧ e.name = w.targetEntityName := by
  rcases mem_graphWalk.mp hw with ⟨hmem, hu, hrow, -⟩
  refine ⟨hu, ?_⟩
  rcases walkRowOf_some.mp hrow with ⟨e, he, hwe⟩
  rcases entityById_props he with ⟨hem, heid⟩
  refine ⟨e, hem, ?_, ?_⟩
  · have := hwf w.rel hmem e hem (Or.inr heid)
    rw [this, hu]
  · rw [hwe]

theorem searchEntities_owned {cosDist : List ℚ → List ℚ → ℚ} {db : Db} {u : Nat}
    {qEmb : List ℚ} {e : Entity} (h : e ∈ searchEntitiesByDescription cosDist db u qEmb) :
    e.userId = u := by
  simp only [searchEntitiesByDescription] at h
  have h1 := (List.mem_filter.mp h).1
  have h2 := List.mem_of_mem_take h1
  rw [mem_sortByKey] at h2
  have h3 := List.mem_filter.mp h2
  simpa using h3.2

theorem relSearch_owned {cosDist : List ℚ → List ℚ → ℚ} {db : Db} {u : Nat}
    {qEmb : List ℚ} {row : RelSearchRow}
    (h : row ∈ searchRelationshipsByEmbedding cosDist db u qEmb) :
    row.rel.userId = u := by
  simp only [searchRelationshipsByEmbedding] at h
  have h1 := List.mem_of_mem_take h
  rw [mem_sortByKey] at h1
  have h2 := (List.mem_filter.mp h1).1
  rcases List.mem_filterMap.mp h2 with ⟨r, hr, hfr⟩
  by_cases hc : r.userId = u
  · rw [if_pos hc] at hfr
    cases h1 : entityById db r.sourceEntityId with
    | none =>
      rw [h1] at hfr
      cases h2t : entityById db r.targetEntityId with
      | none => rw [h2t] at hfr; exact absurd hfr (Option.noConfusion)
      | some e2 => rw [h2t] at hfr; exact absurd hfr (Option.noConfusion)
    | some e1 =>
      rw [h1] at hfr
      cases h2t : entityById db r.targetEntityId with
      | none => rw [h2t] at hfr; exact absurd hfr (Option.noConfusion)
      | some e2 =>
        rw [h2t] at hfr
        have hrow : row = ⟨r, e1.name, e2.name, relationshipSearchDistance cosDist qEmb r⟩ :=
          (Option.some.inj hfr).symm
        rw [hrow]
        exact hc
  · rw [if_neg hc] at hfr
    exact absurd hfr (Option.noConfusion)

/-- Claim C8 (confirmed): user scoping.  Anchor resolution only ever resolves
to an entity owned by the querying user; under the data-model invariant that
no edge references another user's entities, every walked edge and every
surfaced target-entity name belongs to the querying user; the
description-similarity and relationship-similarity searches return only the
user's rows.  The final conjunct is a concrete two-user database where user
1's query surfaces only user 1's data. -/
theorem C8_user_scoping :
    (∀ (cosDist : List ℚ → List ℚ → ℚ) (embedText : String → List ℚ) (db : Db)
        (userId : Nat) (qe : String) (aid : Nat),
        resolveAnchor cosDist embedText db userId qe = some aid →
        ∃ e ∈ db.entities, e.userId = userId ∧ e.id = aid) ∧
    (∀ (db : Db) (userId aid : Nat) (w : WalkRow), EdgesSameUser db →
        w ∈ graphWalk db userId aid →
        w.rel.userId = userId ∧
          ∃ e ∈ db.entities, e.userId = userId ∧ e.name = w.targetEntityName) ∧
    (∀ (cosDist : List ℚ → List ℚ → ℚ) (db : Db) (userId : Nat) (qEmb : List ℚ)
        (e : Entity), e ∈ searchEntitiesByDescription cosDist db userId qEmb →
        e.userId = userId) ∧
    (∀ (cosDist : List ℚ → List ℚ → ℚ) (db : Db) (userId : Nat) (qEmb : List ℚ)
        (row : RelSearchRow), row ∈ searchRelationshipsByEmbedding cosDist db userId qEmb →
        row.rel.userId = userId) ∧
    searchKnowledgeGraph cosDistEq embedZero dbTwoUsers 1 ["sam"] [1] =
      ⟨["Jake Owen is my favorite country artist"], ["jake"]⟩ := by
  refine ⟨?_, ?_, ?_, ?_, searchKG_concrete⟩
  · intro cosDist embedText db userId qe aid h
    exact resolveAnchor_owned cosDist embedText db userId qe aid h
  · intro db userId aid w hwf hw
    exact graphWalk_owned hwf hw
  · intro cosDist db userId qEmb e h
    exact searchEntities_owned h
  · intro cosDist db userId qEmb row h
    exact relSearch_owned h

/-! ## Claim C3 -/

theorem getOrCreateEntity_hit {gw : Gateway} {db : Db} {u : Nat} {n un : String}
    {e : Entity} (h : findEntity db u n = some e) :
    getOrCreateEntity gw db u n un = Except.ok (e, db) := by
  simp only [getOrCreateEntity, h]

theorem createRelationship_conflict (db : Db) (ins : InsertRelationship) (r : Relationship)
    (h : db.relationships.find? (relKeyMatches ins) = some r) :
    createRelationship db ins = (r, db) := by
  simp only [createRelationship, h]

theorem relKeyMatches_toRow (ins : InsertRelationship) (i : Nat) :
    relKeyMatches ins (ins.toRow i) = true := by
  simp [relKeyMatches, InsertRelationship.toRow]

theorem getOrCreate_twice {gw gw' : Gateway} {db : Db} {u : Nat} {n un un' : String}
    {e1 : Entity} {db1 : Db} (hfresh : findEntity db u n = none)
    (h1 : getOrCreateEntity gw db u n un = Except.ok (e1, db1)) :
    getOrCreateEntity gw' db1 u n un' = Except.ok (e1, db1) ∧
      entityKeyCount db1 u n = 1 := by
  have hfreshRaw : db.entities.find? (fun e => decide (e.userId = u ∧ e.name = n)) = none := hfresh
  simp only [getOrCreateEntity, hfresh] at h1
  rcases hg : gw.genEntityDescription n un with err | desc
  · rw [hg] at h1
    exact absurd h1 (by simp)
  · rw [hg] at h1
    dsimp only at h1
    rcases he : gw.embed desc with err | vec
    · rw [he] at h1
      exact absurd h1 (by simp)
    · rw [he] at h1
      dsimp only at h1
      have hp := Except.ok.inj h1
      rw [Prod.mk.injEq] at hp
      obtain ⟨he1, hdb1⟩ := hp
      subst he1
      subst hdb1
      have hq : (fun e : Entity => decide (e.userId = u ∧ e.name = n))
          ⟨freshEntityId db, u, n, some desc, some vec⟩ = true := by simp
      constructor
      · have hfind2 : findEntity
            { db with entities :=
                db.entities ++ [⟨freshEntityId db, u, n, some desc, some vec⟩] } u n =
            some ⟨freshEntityId db, u, n, some desc, some vec⟩ := by
          show (db.entities ++ [(⟨freshEntityId db, u, n, some desc, some vec⟩ : Entity)]).find?
              (fun e => decide (e.userId = u ∧ e.name = n)) = _
          rw [List.find?_append, hfreshRaw]
          simp [List.find?_cons, hq]
        simp only [getOrCreateEntity, hfind2]
      · have hnil : db.entities.filter (fun e => decide (e.userId = u ∧ e.name = n)) = [] := by
          rw [List.filter_eq_nil_iff]
          intro e hee
          exact List.find?_eq_none.mp hfreshRaw e hee
        show (List.filter _ (db.entities ++ [_])).length = 1
        rw [List.filter_append, hnil]
        simp [hq]

theorem createRelationship_twice (db : Db) (ins : InsertRelationship)
    (hfresh : ∀ r ∈ db.relationships, relKeyMatches ins r = false) :
    createRelationship (createRelationship db ins).2 ins =
      ((createRelationship db ins).1, (createRelationship db ins).2) ∧
    relKeyCount (createRelationship db ins).2 ins = 1 := by
  have hfind : db.relationships.find? (relKeyMatches ins) = none := by
    rw [List.find?_eq_none]
    intro r hr
    rw [hfresh r hr]
    simp
  have hfirst : createRelationship db ins =
      (ins.toRow (freshRelationshipId db),
       { db with relationships := db.relationships ++ [ins.toRow (freshRelationshipId db)] }) := by
    simp only [createRelationship, hfind]
  rw [hfirst]
  have hfind2 : (db.relationships ++ [ins.toRow (freshRelationshipId db)]).find?
      (relKeyMatches ins) = some (ins.toRow (freshRelationshipId db)) := by
    rw [List.find?_append, hfind]
    simp [List.find?_cons, relKeyMatches_toRow]
  constructor
  · simp only [createRelationship, hfind2]
  · have hnil : db.relationships.filter (relKeyMatches ins) = [] := by
      rw [List.filter_eq_nil_iff]
      intro r hr
      rw [hfresh r hr]
      simp
    show (List.filter _ (db.relationships ++ [_])).length = 1
    rw [List.filter_append, hnil]
    simp [relKeyMatches_toRow]

/-- Claim C3 (confirmed): entity and relationship creation are idempotent.
A second `getOrCreateEntity` with the same `(user, name)` returns exactly the
row the first call created, and exactly one row with that key exists; a
lookup hit returns the stored row without mutating anything.  A second
`createRelationship` with the same unique key hits the duplicate-key path,
which recovers locally by re-reading and returning the existing row — never
an error to the caller — and exactly one row with the key exists.  The last
conjunct runs a creation concretely. -/
theorem C3_idempotent_creation :
    (∀ (gw gw' : Gateway) (db : Db) (u : Nat) (n un un' : String) (e1 : Entity) (db1 : Db),
        findEntity db u n = none →
        getOrCreateEntity gw db u n un = Except.ok (e1, db1) →
        getOrCreateEntity gw' db1 u n un' = Except.ok (e1, db1) ∧
          entityKeyCount db1 u n = 1) ∧
    (∀ (gw : Gateway) (db : Db) (u : Nat) (n un : String) (e : Entity),
        findEntity db u n = some e →
        getOrCreateEntity gw db u n un = Except.ok (e, db)) ∧
    (∀ (db : Db) (ins : InsertRelationship),
        (∀ r ∈ db.relationships, relKeyMatches ins r = false) →
        createRelationship (createRelationship db ins).2 ins =
          ((createRelationship db ins).1, (createRelationship db ins).2) ∧
        relKeyCount (createRelationship db ins).2 ins = 1) ∧
    (∀ (db : Db) (ins : InsertRelationship) (r : Relationship),
        db.relationships.find? (relKeyMatches ins) = some r →
        createRelationship db ins = (r, db)) ∧
    getOrCreateEntity gwOk dbEmpty 1 "sam" "sam" =
      Except.ok (⟨1, 1, "sam", some "a generated description", some [0]⟩,
        ⟨[⟨1, 1, "sam", some "a generated description", some [0]⟩], [], []⟩) := by
  refine ⟨?_, ?_, ?_, ?_, rfl⟩
  · intro gw gw' db u n un un' e1 db1 hfresh h1
    exact getOrCreate_twice hfresh h1
  · intro gw db u n un e h
    exact getOrCreateEntity_hit h
  · intro db ins h
    exact createRelationship_twice db ins h
  · intro db ins r h
    exact createRelationship_conflict db ins r h

/-! ## Claim C4 -/

/-- Claim C4 (code_bug): the ingestion loop processes a fragment whose alias
flag is set exactly like any other fragment — both entities are created and a
relationship edge is written to the relationship store; nothing in the
repository reads the flag or writes the alias tables.  Concretely, the
prompt's own alias example fragment (`Bob is my husband`, `aliases: true`)
produces the edge `(Bob) --is--> (my husband)`. -/
theorem C4_alias_fragment_writes_edge :
    aliasFragment.aliases = true ∧
    gwAlias.extract "Bob is my husband" "sam" = Except.ok [aliasFragment] ∧
    ((ingestStatement gwAlias dbEmpty 1 "sam" "Bob is my husband").1.relationships.map
      (fun r => (r.sourceEntityId, r.relationship, r.targetEntityId))) = [(1, "is", 2)] ∧
    (ingestStatement gwAlias dbEmpty 1 "sam" "Bob is my husband").1.entities.length = 2 := by
  exact ⟨rfl, rfl, rfl, rfl⟩

/-! ## Claim C5 -/

theorem getOrCreateEntity_inputs {gw : Gateway} {db : Db} {u : Nat} {n un : String}
    {e : Entity} {db' : Db} (h : getOrCreateEntity gw db u n un = Except.ok (e, db')) :
    db'.inputs = db.inputs := by
  simp only [getOrCreateEntity] at h
  cases hf : findEntity db u n with
  | some e0 =>
    rw [hf] at h
    have hp := Except.ok.inj h
    rw [Prod.mk.injEq] at hp
    rw [← hp.2]
  | none =>
    rw [hf] at h
    dsimp only at h
    rcases hg : gw.genEntityDescription n un with err | desc
    · rw [hg] at h
      exact absurd h (by simp)
    · rw [hg] at h
      dsimp only at h
      rcases he : gw.embed desc with err | vec
      · rw [he] at h
        exact absurd h (by simp)
      · rw [he] at h
        dsimp only at h
        have hp := Except.ok.inj h
        rw [Prod.mk.injEq] at hp
        rw [← hp.2]

theorem createRelationship_inputs (db : Db) (ins : InsertRelationship) :
    ((createRelationship db ins).2).inputs = db.inputs := by
  simp only [createRelationship]
  cases h : db.relationships.find? (relKeyMatches ins) with
  | some r => rfl
  | none => rfl

theorem updateEntityContext_inputs {gw : Gateway} {db : Db} {u : Nat} {n c : String}
    {db' : Db} (h : updateEntityContext gw db u n c = Except.ok db') :
    db'.inputs = db.inputs := by
  simp only [updateEntityContext] at h
  cases hf : findEntity db u n with
  | none =>
    rw [hf] at h
    exact absurd h (by simp)
  | some e =>
    rw [hf] at h
    dsimp only at h
    rcases he : gw.embed (appendContext e.description c) with err | vec
    · rw [he] at h
      exact absurd h (by simp)
    · rw [he] at h
      dsimp only at h
      rw [← Except.ok.inj h]

theorem contextUpdateForFragment_inputs (gw : Gateway) (db : Db) (u : Nat)
    (c : String) (f : Fragment) :
    (contextUpdateForFragment gw db u c f).inputs = db.inputs := by
  simp only [contextUpdateForFragment]
  cases hs : (if entityExists db u f.sourceEntity then
      updateEntityContext gw db u f.sourceEntity c else Except.ok db) with
  | error e => rfl
  | ok db1 =>
    have hdb1 : db1.inputs = db.inputs := by
      by_cases hex : entityExists db u f.sourceEntity
      · rw [if_pos hex] at hs
        exact updateEntityContext_inputs hs
      · rw [if_neg hex] at hs
        rw [← Except.ok.inj hs]
    dsimp only
    by_cases hex : entityExists db1 u f.targetEntity
    · rw [if_pos hex]
      cases ht : updateEntityContext gw db1 u f.targetEntity c with
      | error e => exact hdb1
      | ok db2 => rw [updateEntityContext_inputs ht, hdb1]
    · rw [if_neg hex]
      exact hdb1

theorem detect_inputs (gw : Gateway) (u : Nat) (c : String) :
    ∀ (l : List Fragment) (db : Db),
      (detectExistingEntitiesForContextUpdate gw u c db l).inputs = db.inputs := by
  intro l
  induction l with
  | nil => intro db; rfl
  | cons f rest ih =>
    intro db
    show (detectExistingEntitiesForContextUpdate gw u c
      (contextUpdateForFragment gw db u c f) rest).inputs = db.inputs
    rw [ih, contextUpdateForFragment_inputs]

theorem processFragment_inputs (gw : Gateway) (db : Db) (u : Nat) (un c : String)
    (er : Fragment) : ((processFragment gw db u un c er).1).inputs = db.inputs := by
  simp only [processFragment]
  cases h1 : getOrCreateEntity gw db u er.sourceEntity un with
  | error e => rfl
  | ok p1 =>
    rcases p1 with ⟨se, db1⟩
    have hi1 : db1.inputs = db.inputs := getOrCreateEntity_inputs h1
    dsimp only
    cases h2 : getOrCreateEntity gw db1 u er.targetEntity un with
    | error e => exact hi1
    | ok p2 =>
      rcases p2 with ⟨te, db2⟩
      have hi2 : db2.inputs = db.inputs := by
        rw [getOrCreateEntity_inputs h2, hi1]
      dsimp only
      cases h3 : gw.embed er.relationship with
      | error e => exact hi2
      | ok relEmb =>
        dsimp only
        cases h4 : gw.embed (gw.genRelationshipDescription er.sourceEntity
            er.relationship er.targetEntity) with
        | error e => exact hi2
        | ok relDescEmb =>
          dsimp only
          show ((createRelationship db2 _).2).inputs = db.inputs
          rw [createRelationship_inputs, hi2]

theorem processFragments_inputs (gw : Gateway) (u : Nat) (un c : String) :
    ∀ (l : List Fragment) (db : Db),
      ((processFragments gw u un c db l).1).inputs = db.inputs := by
  intro l
  induction l with
  | nil => intro db; rfl
  | cons er rest ih =>
    intro db
    simp only [processFragments]
    cases hp : processFragment gw db u un c er with
    | mk db1 b =>
      have hi : db1.inputs = db.inputs := by
        have := processFragment_inputs gw db u un c er
        rw [hp] at this
        exact this
      cases b with
      | true => exact hi
      | false =>
        show ((processFragments gw u un c db1 rest).1).inputs = db.inputs
        rw [ih db1, hi]

theorem processFragments_abort (gw : Gateway) (u : Nat) (un c : String) (db : Db)
    (er : Fragment) (rest : List Fragment)
    (h : (processFragment gw db u un c er).2 = true) :
    processFragments gw u un c db (er :: rest) =
      ((processFragment gw db u un c er).1, true) := by
  simp only [processFragments]
  rcases hp : processFragment gw db u un c er with ⟨db1, b⟩
  rw [hp] at h
  simp only at h
  subst h
  rfl

/-- Claim C5, counterexample: extraction yields two fragments and the
embedding of the first fragment's label fails.  The ingestion request still
succeeds and keeps the raw statement, but NO relationship is created — the
second fragment was never processed, although the same gateway processes it
fine when it is the only fragment.  A failure on one fragment therefore does
abort the rest of the list, contradicting the claim. -/
theorem C5_counterexample :
    (ingestStatement gwTwoFragments dbEmpty 1 "sam" "the two fragment statement").1.relationships
      = [] ∧
    (ingestStatement gwTwoFragments dbEmpty 1 "sam" "the two fragment statement").2 = true ∧
    (1, "the two fragment statement") ∈
      (ingestStatement gwTwoFragments dbEmpty 1 "sam" "the two fragment statement").1.inputs ∧
    (ingestStatement gwSecondOnly dbEmpty 1 "sam" "the two fragment statement").1.relationships.length
      = 1 := by
  refine ⟨rfl, rfl, ?_, rfl⟩
  show (1, "the two fragment statement") ∈ [((1 : Nat), "the two fragment statement")]
  simp

/-- Claim C5 (amended): ingestion side effects are best-effort per statement,
not per fragment: the raw statement is always persisted and the request
always succeeds whatever the gateway does (the enrichment block is wrapped in
a catch), but the per-fragment loop has no per-fragment recovery — the first
fragment whose processing throws ends the loop, and the remaining fragments
in the list are never processed. -/
theorem C5_best_effort :
    (∀ (gw : Gateway) (db : Db) (userId : Nat) (username content : String),
        (ingestStatement gw db userId username content).2 = true ∧
        (userId, content) ∈ (ingestStatement gw db userId username content).1.inputs) ∧
    (∀ (gw : Gateway) (userId : Nat) (username content : String) (db : Db)
        (er : Fragment) (rest : List Fragment),
        (processFragment gw db userId username content er).2 = true →
        processFragments gw userId username content db (er :: rest) =
          ((processFragment gw db userId username content er).1, true)) := by
  constructor
  · intro gw db userId username content
    simp only [ingestStatement]
    cases he : gw.extract content username with
    | error e =>
      exact ⟨rfl, by simp⟩
    | ok ers =>
      refine ⟨rfl, ?_⟩
      rw [processFragments_inputs, detect_inputs]
      simp
  · intro gw userId username content db er rest h
    exact processFragments_abort gw userId username content db er rest h

end Recallet
